import Mathlib

/-!
Verification of the dog-adoption aggregation pipeline
(`src/dog_adoption/core.py`, `src/dog_adoption/main.py`).

The Python code is embedded shallowly: listings (Python dicts) become the
`Dog` structure, the JSON cache becomes association lists mirroring dict
semantics, and the methods of `CoreMixin` / `DogAdoptionBot` become pure
functions.  File locking, logging and disk persistence are effect-free with
respect to the values the properties below talk about, so they are dropped;
wall-clock timestamps are passed explicitly.
-/

set_option autoImplicit false

namespace Chien

/-- A listing record.  In the source each listing is a Python dict; the
fields the core reads are embedded here.  `score = none` models a dict
without a `"score"` key, so that `x.get("score", 0)` defaults to `0`. -/
structure Dog where
  name : String
  detail_url : String
  full_description : String
  score : Option Int
  score_details : List String
  deriving Repr, DecidableEq

/-- Entry of the description cache:
`{"text": ..., "updated_at": ..., "name"?: ...}` (the `"name"` key is only
present when a non-falsy name was given). -/
structure DescEntry where
  text : String
  updated_at : Nat
  name : Option String
  deriving Repr, DecidableEq

/-- Entry of the score cache:
`{"score": ..., "score_details": ..., "updated_at": ...}`. -/
structure ScoreEntry where
  score : Int
  score_details : List String
  updated_at : Nat
  deriving Repr, DecidableEq

/-- `m.get(key)` on a Python dict modelled as an association list. -/
def lookupA {α : Type} : List (String × α) → String → Option α
  | [], _ => none
  | (k, v) :: rest, key => if k = key then some v else lookupA rest key

/-- `m[key] = v` on a Python dict: replace in place, append when absent. -/
def insertA {α : Type} : List (String × α) → String → α → List (String × α)
  | [], key, v => [(key, v)]
  | (k, w) :: rest, key, v =>
    if k = key then (key, v) :: rest else (k, w) :: insertA rest key v

/-- The in-memory cache `{"descriptions": {...}, "scores": {...}}`
(`CoreMixin.cache`).  Scores are keyed by detail URL, then prompt hash. -/
structure Cache where
  descriptions : List (String × DescEntry)
  scores : List (String × List (String × ScoreEntry))
  deriving Repr, DecidableEq

/-- The cache `_load_cache` falls back to: `{"descriptions": {}, "scores": {}}`. -/
def emptyCache : Cache := ⟨[], []⟩

/-- `CoreMixin.get_cached_description`: empty URL short-circuits; a missing
entry reads as the empty string. -/
def get_cached_description (c : Cache) (detail_url : String) : String :=
  if detail_url = "" then ""
  else
    match lookupA c.descriptions detail_url with
    | some entry => entry.text
    | none => ""

/-- `CoreMixin.set_cached_description`: a falsy URL or falsy text makes the
call a no-op; otherwise the entry is (re)written with the current timestamp,
recording the name only when it is non-falsy. -/
def set_cached_description (c : Cache) (detail_url text : String)
    (name : Option String) (now : Nat) : Cache :=
  if detail_url = "" ∨ text = "" then c
  else
    let entry : DescEntry :=
      { text := text, updated_at := now,
        name := if name.getD "" = "" then none else name }
    { c with descriptions := insertA c.descriptions detail_url entry }

/-- `CoreMixin.get_cached_score`: falsy URL or falsy prompt hash is a miss;
`if not by_url` in the source also treats an empty per-URL dict as a miss. -/
def get_cached_score (c : Cache) (detail_url prompt_hash : String) :
    Option ScoreEntry :=
  if detail_url = "" ∨ prompt_hash = "" then none
  else
    match lookupA c.scores detail_url with
    | none => none
    | some by_url => if by_url = [] then none else lookupA by_url prompt_hash

/-- `CoreMixin.set_cached_score`: falsy URL or falsy prompt hash makes the
call a no-op; otherwise `cache["scores"].setdefault(url, {})[hash] = entry`. -/
def set_cached_score (c : Cache) (detail_url prompt_hash : String)
    (score : Int) (score_details : List String) (now : Nat) : Cache :=
  if detail_url = "" ∨ prompt_hash = "" then c
  else
    let entry : ScoreEntry :=
      { score := score, score_details := score_details, updated_at := now }
    let by_url := (lookupA c.scores detail_url).getD []
    { c with scores := insertA c.scores detail_url (insertA by_url prompt_hash entry) }

/-- A parsed cache document as `json.load` returns it: either top-level key
may be missing. -/
structure RawCacheDoc where
  descriptions : Option (List (String × DescEntry))
  scores : Option (List (String × List (String × ScoreEntry)))
  deriving Repr, DecidableEq

/-- `CoreMixin._load_cache`.  The argument is what the filesystem presents:
`none` when `cache.json` does not exist, `Except.error` when opening or
parsing raises (the `except` branch), `Except.ok` a parsed document whose
missing top-level keys are then defaulted to empty dicts. -/
def load_cache (disk : Option (Except String RawCacheDoc)) : Cache :=
  match disk with
  | none => emptyCache
  | some (Except.error _) => emptyCache
  | some (Except.ok doc) =>
    { descriptions := doc.descriptions.getD [], scores := doc.scores.getD [] }

/-- `name.lower()` (ASCII fragment of the Unicode lowering, which coincides
on the listing names involved). -/
def lowerString (s : String) : String := String.mk (s.data.map Char.toLower)

/-- The identity key of `_deduplicate_dogs`:
`(dog.get("name", "").lower(), dog.get("detail_url", ""))`. -/
def dogKey (d : Dog) : String × String := (lowerString d.name, d.detail_url)

/-- The loop of `_deduplicate_dogs`, with the `seen_dogs` set made explicit. -/
def dedupGo (seen : List (String × String)) : List Dog → List Dog
  | [] => []
  | d :: rest =>
    if dogKey d ∈ seen then dedupGo seen rest
    else d :: dedupGo (dogKey d :: seen) rest

/-- `DogAdoptionBot._deduplicate_dogs`: first listing per identity key wins. -/
def deduplicate_dogs (dogs : List Dog) : List Dog := dedupGo [] dogs

/-- The Ranker sort key: `x.get("score", 0)`. -/
def sortKey (d : Dog) : Int := d.score.getD 0

/-- Stable descending insertion: the incoming element is placed before the
first element with a strictly smaller key, hence after all earlier elements
of equal or larger key. -/
def insertDesc (d : Dog) : List Dog → List Dog
  | [] => [d]
  | e :: rest =>
    if sortKey e ≤ sortKey d then d :: e :: rest else e :: insertDesc d rest

/-- The Ranker: `unique_dogs.sort(key=lambda x: x.get("score", 0),
reverse=True)`.  Python sort is stable, and a stable sort by a fixed key is
uniquely determined, so stable insertion sort is an exact model of it. -/
def rank_dogs : List Dog → List Dog
  | [] => []
  | d :: rest => insertDesc d (rank_dogs rest)

/-- The result-collection loop of `scrape_all_sources`: each finished future
either yields listings, which are appended in completion order, or raised,
which is recorded in the log together with the source name and skipped.
Returns `(all_dogs, error log)`. -/
def collect_results :
    List (String × Except String (List Dog)) → List Dog × List (String × String)
  | [] => ([], [])
  | (_, Except.ok dogs) :: rest =>
    let r := collect_results rest
    (dogs ++ r.1, r.2)
  | (src, Except.error e) :: rest =>
    let r := collect_results rest
    (r.1, (src, e) :: r.2)

/-- The whitespace test of `str.strip()` (ASCII fragment). -/
def isSpaceChar (ch : Char) : Bool :=
  ch = ' ' || ch = '\t' || ch = '\n' || ch = '\r' || ch.toNat = 11 || ch.toNat = 12

/-- `score_text.strip()` on the underlying character list. -/
def stripList (l : List Char) : List Char :=
  ((l.dropWhile isSpaceChar).reverse.dropWhile isSpaceChar).reverse

/-- `int(...)` on a run of decimal digits. -/
def digitsToNat (ds : List Char) : Nat :=
  ds.foldl (fun acc ch => acc * 10 + (ch.toNat - 48)) 0

/-- `re.search(r"\d+", text)`: the first maximal run of digits, if any. -/
def firstDigitRun : List Char → Option (List Char)
  | [] => none
  | ch :: rest =>
    if ch.isDigit then some (ch :: rest.takeWhile Char.isDigit)
    else firstDigitRun rest

/-- `CoreMixin._parse_gemini_score`: strip, find the first integer, return
it, or `0` when there is none (the `int()` of a digit run never raises, so
the `except ValueError` branch is dead). -/
def parse_gemini_score (score_text : String) : Int :=
  match firstDigitRun (stripList score_text.data) with
  | some ds => Int.ofNat (digitsToNat ds)
  | none => 0

/-- The environment `score_dog_with_gemini` runs in: the `API_KEY` variable
(`none` = unset; `some ""` is falsy too), the prompt fingerprint computed by
`_compute_prompt_hash` (an md5 hex digest, kept abstract), the content of
`prompt.txt` when the file exists, what a network fetch of a detail page
would extract (`""` = fetch failed or nothing extractable), the outcome of
`model.generate_content` (`Except.error` = the remote call raised), and the
wall clock used for cache timestamps. -/
structure GeminiEnv where
  apiKey : Option String
  promptHash : String
  promptFile : Option String
  fetch : String → String
  geminiResponse : Except String String
  now : Nat

/-- Does the second list start with the first one? -/
def listStartsWith : List Char → List Char → Bool
  | [], _ => true
  | _ :: _, [] => false
  | p :: ps, c :: cs => p = c && listStartsWith ps cs

/-- Fueled scan of `text.replace(pat, repl)`; structural recursion on the
fuel keeps it kernel-reducible, and fuel equal to the text length is enough
because every step consumes at least one character. -/
def replaceAllGo (pat repl : List Char) : Nat → List Char → List Char
  | _, [] => []
  | 0, l => l
  | fuel + 1, c :: rest =>
    if pat ≠ [] ∧ listStartsWith pat (c :: rest) then
      repl ++ replaceAllGo pat repl fuel ((c :: rest).drop pat.length)
    else c :: replaceAllGo pat repl fuel rest

/-- `text.replace(pat, repl)` on character lists, for the non-empty patterns
the prompt builder substitutes (an empty pattern is returned unchanged
rather than interleaved as Python would, as no caller passes one). -/
def replaceAll (pat repl l : List Char) : List Char :=
  replaceAllGo pat repl l.length l

/-- The result dict as consumed by `_score_dogs_concurrently`
(`dog.update(result)` reads the `"score"` and `"score_details"` keys). -/
structure ScoringResult where
  score : Int
  score_details : List String
  deriving Repr, DecidableEq

/-- `CoreMixin._generate_gemini_prompt` (with `breed_analysis = None`, as the
pipeline always passes): when `prompt.txt` is missing, a fixed non-empty
template around the first 1500 characters of the description; otherwise the
file content with `\x7bdog_name\x7d` and `\x7braw_text\x7d` substituted (the
description truncated to 2000 characters). -/
def generate_gemini_prompt (env : GeminiEnv) (dog : Dog) : String :=
  match env.promptFile with
  | none =>
    "Evaluate the suitability of the dog for apartment living with a cat based *only* on the text below.\nDescription: "
      ++ dog.full_description.take 1500
      ++ "\nOn a scale of 0 to 100, how suitable is this dog for a small apartment with a resident cat? Provide only the integer score."
  | some tmpl =>
    String.mk (replaceAll "\x7braw_text\x7d".data (dog.full_description.take 2000).data
      (replaceAll "\x7bdog_name\x7d".data dog.name.data tmpl.data))

/-- `CoreMixin.get_full_description`: serve from cache when possible, else
fetch and extract; an empty extraction is a failure and is not cached.
Returns the description together with the cache after any write. -/
def get_full_description (env : GeminiEnv) (c : Cache) (detail_url : String) :
    String × Cache :=
  let cached := get_cached_description c detail_url
  if cached ≠ "" then (cached, c)
  else
    let full_desc := env.fetch detail_url
    if full_desc ≠ "" then
      (full_desc, set_cached_description c detail_url full_desc none env.now)
    else ("", c)

/-- `CoreMixin._call_gemini_api`: a falsy `API_KEY` yields
`{"score": 0, "score_details": ["Missing API Key"]}` without raising; an
empty generated prompt yields the `-1` prompt sentinel; otherwise the
evaluator is called — `Except.error` models `generate_content` raising,
which this function does not catch — and its response is parsed into
`{"score": s, "score_details": ["Gemini Score: s/100"]}`. -/
def call_gemini_api (env : GeminiEnv) (dog : Dog) : Except String ScoringResult :=
  if env.apiKey.getD "" = "" then
    Except.ok { score := 0, score_details := ["Missing API Key"] }
  else
    let prompt := generate_gemini_prompt env dog
    if prompt = "" then
      Except.ok { score := -1, score_details := ["Prompt generation failed"] }
    else
      match env.geminiResponse with
      | Except.error e => Except.error e
      | Except.ok text =>
        let s := parse_gemini_score text
        Except.ok { score := s,
                    score_details := ["Gemini Score: " ++ toString s ++ "/100"] }

/-- The tail of `score_dog_with_gemini` once a description is in hand: score
cache lookup under the current prompt fingerprint; on a miss, call the
evaluator, persist any dict result carrying a `"score"` key (every
non-raising outcome does), and on a raise return the error sentinel. -/
def score_gemini_after_desc (env : GeminiEnv) (c : Cache) (dog : Dog) :
    ScoringResult × Cache :=
  match get_cached_score c dog.detail_url env.promptHash with
  | some entry => ({ score := entry.score, score_details := entry.score_details }, c)
  | none =>
    match call_gemini_api env dog with
    | Except.error _ =>
      ({ score := -1, score_details := ["Error scoring with Gemini"] }, c)
    | Except.ok result =>
      (result, set_cached_score c dog.detail_url env.promptHash result.score
        result.score_details env.now)

/-- `CoreMixin.score_dog_with_gemini`: resolve the description (own field,
then description cache, then one re-fetch via `get_full_description`), and
hand over to the cache-lookup/evaluate tail; when no description can be
obtained return `{"score": -1, "score_details": ["Missing description"]}`.
Returns the result dict and the cache after all writes. -/
def score_dog_with_gemini (env : GeminiEnv) (c : Cache) (dog : Dog) :
    ScoringResult × Cache :=
  let detail_url := dog.detail_url
  let desc0 :=
    if dog.full_description ≠ "" then dog.full_description
    else get_cached_description c detail_url
  if desc0 ≠ "" then
    score_gemini_after_desc env
      (set_cached_description c detail_url desc0 none env.now) dog
  else
    let fc := if detail_url ≠ "" then get_full_description env c detail_url
              else ("", c)
    if fc.1 ≠ "" then
      score_gemini_after_desc env
        (set_cached_description fc.2 detail_url fc.1 none env.now)
        { dog with full_description := fc.1 }
    else
      ({ score := -1, score_details := ["Missing description"] }, fc.2)

/-- Shorthand for concrete listings in examples. -/
def mkDog (nm url desc : String) (sc : Option Int) : Dog :=
  { name := nm, detail_url := url, full_description := desc, score := sc,
    score_details := [] }

/-- The sublist of `l` whose identity key is `k` (statement helper). -/
def keyFilter (k : String × String) (l : List Dog) : List Dog :=
  l.filter (fun d => decide (dogKey d = k))

/-- The sublist of `l` whose sort key is `s` (statement helper: a sort is
stable for key `s` exactly when this sublist is preserved). -/
def scoreFilter (s : Int) (l : List Dog) : List Dog :=
  l.filter (fun d => decide (sortKey d = s))

/-- Concrete run environment with `API_KEY` unset. -/
def envNoKey : GeminiEnv :=
  { apiKey := none, promptHash := "h", promptFile := none,
    fetch := fun _ => "", geminiResponse := Except.ok "50", now := 0 }

/-- Concrete run environment where the evaluator call raises. -/
def envRaises : GeminiEnv :=
  { apiKey := some "k", promptHash := "h",
    promptFile := some "Rate \x7braw_text\x7d for a small flat with a cat.",
    fetch := fun _ => "", geminiResponse := Except.error "boom", now := 0 }

/-! ## Association-list (dict) lemmas -/

theorem lookupA_insertA_self {α : Type} (m : List (String × α)) (k : String)
    (v : α) : lookupA (insertA m k v) k = some v := by
  induction m with
  | nil => simp [insertA, lookupA]
  | cons p rest ih =>
    obtain ⟨a, w⟩ := p
    by_cases h : a = k <;> simp [insertA, lookupA, h, ih]

theorem lookupA_insertA_ne {α : Type} (m : List (String × α)) (k k' : String)
    (v : α) (h : k ≠ k') : lookupA (insertA m k v) k' = lookupA m k' := by
  induction m with
  | nil => simp [insertA, lookupA, h]
  | cons p rest ih =>
    obtain ⟨a, w⟩ := p
    by_cases ha : a = k
    · subst ha
      simp [insertA, lookupA, h]
    · simp [insertA, lookupA, ha, ih]

theorem insertA_ne_nil {α : Type} (m : List (String × α)) (k : String)
    (v : α) : insertA m k v ≠ [] := by
  cases m with
  | nil => simp [insertA]
  | cons p rest =>
    obtain ⟨a, w⟩ := p
    by_cases h : a = k <;> simp [insertA, h]

/-! ## Cache frame lemmas -/

theorem scores_set_cached_description (c : Cache) (u t : String)
    (n : Option String) (now : Nat) :
    (set_cached_description c u t n now).scores = c.scores := by
  simp only [set_cached_description]
  split <;> rfl

theorem get_cached_score_set_cached_description (c : Cache) (u t : String)
    (n : Option String) (now : Nat) (u2 f : String) :
    get_cached_score (set_cached_description c u t n now) u2 f =
      get_cached_score c u2 f := by
  simp only [get_cached_score, scores_set_cached_description]

/-! ## Claim theorems -/

/-- C3: for a non-empty URL and non-empty text, writing the Fetch Cache
twice with the same URL and text and reading it back returns that text
(idempotent write); and a `set_cached_description` with empty text is a
complete no-op on the cache, so it can never evict a prior entry. -/
theorem fetch_cache_idempotent (c : Cache) (url text : String)
    (name name2 : Option String) (t1 t2 t3 : Nat)
    (hurl : url ≠ "") (htext : text ≠ "") :
    get_cached_description
      (set_cached_description (set_cached_description c url text name t1)
        url text name t2) url = text ∧
    set_cached_description c url "" name2 t3 = c := by
  constructor
  · simp [set_cached_description, get_cached_description, hurl, htext,
      lookupA_insertA_self]
  · simp [set_cached_description]

/-- Witness for C3 at a concrete cache, URL and text. -/
theorem fetch_cache_idempotent_witness :
    ("u" : String) ≠ "" ∧ ("hello" : String) ≠ "" ∧
    (get_cached_description
      (set_cached_description (set_cached_description emptyCache "u" "hello" none 1)
        "u" "hello" none 2) "u" = "hello" ∧
     set_cached_description emptyCache "u" "" none 3 = emptyCache) :=
  ⟨by decide, by decide,
    fetch_cache_idempotent emptyCache "u" "hello" none none 1 2 3
      (by decide) (by decide)⟩

/-- C9: empty keys make the cache accessors no-ops: `set_cached_description`
with an empty URL and `set_cached_score` with an empty URL or empty
fingerprint leave the cache unchanged, and the getters with an empty key
return the absent sentinel (`""` resp. `none`) for every cache, i.e. without
consulting the store. -/
theorem cache_empty_key_noops (c : Cache) (text : String) (name : Option String)
    (t : Nat) (url prompt_hash : String) (s : Int) (d : List String) :
    set_cached_description c "" text name t = c ∧
    set_cached_score c "" prompt_hash s d t = c ∧
    set_cached_score c url "" s d t = c ∧
    get_cached_description c "" = "" ∧
    get_cached_score c "" prompt_hash = none ∧
    get_cached_score c url "" = none := by
  refine ⟨?_, ?_, ?_, ?_, ?_, ?_⟩ <;>
    simp [set_cached_description, set_cached_score, get_cached_description,
      get_cached_score]

/-- C7: a missing cache file and an unreadable/corrupt cache file both load
as the empty cache (the load is a total function, so it never raises), and a
readable document missing the `descriptions` or `scores` top-level key gets
that key defaulted to the empty mapping. -/
theorem load_cache_defaults (e : String) (d : List (String × DescEntry))
    (s : List (String × List (String × ScoreEntry))) :
    load_cache none = emptyCache ∧
    load_cache (some (Except.error e)) = emptyCache ∧
    load_cache (some (Except.ok ⟨none, none⟩)) = emptyCache ∧
    load_cache (some (Except.ok ⟨some d, none⟩)) = ⟨d, []⟩ ∧
    load_cache (some (Except.ok ⟨none, some s⟩)) = ⟨[], s⟩ ∧
    load_cache (some (Except.ok ⟨some d, some s⟩)) = ⟨d, s⟩ :=
  ⟨rfl, rfl, rfl, rfl, rfl, rfl⟩

/-- C5: storing a score under fingerprint `F1` makes `(url, F1)` hit; a
lookup under a different, previously unseen fingerprint `F2` misses (which
is what forces a fresh Evaluator call); and a subsequent store under
`(url, F2)` leaves the `(url, F1)` entry present and unchanged. -/
theorem scoring_cache_invalidation (c : Cache) (url F1 F2 : String)
    (s1 s2 : Int) (d1 d2 : List String) (t1 t2 : Nat)
    (hurl : url ≠ "") (hF1 : F1 ≠ "") (hF2 : F2 ≠ "") (hne : F1 ≠ F2)
    (hfresh : get_cached_score c url F2 = none) :
    get_cached_score (set_cached_score c url F1 s1 d1 t1) url F1 =
      some ⟨s1, d1, t1⟩ ∧
    get_cached_score (set_cached_score c url F1 s1 d1 t1) url F2 = none ∧
    get_cached_score
      (set_cached_score (set_cached_score c url F1 s1 d1 t1) url F2 s2 d2 t2)
      url F1 = some ⟨s1, d1, t1⟩ := by
  have hbu : lookupA ((lookupA c.scores url).getD []) F2 = none := by
    unfold get_cached_score at hfresh
    rw [if_neg (by simp [hurl, hF2])] at hfresh
    cases hlk : lookupA c.scores url with
    | none => simp [lookupA]
    | some bu =>
      rw [hlk] at hfresh
      by_cases hb : bu = []
      · simp [hb, lookupA]
      · simpa [hb] using hfresh
  refine ⟨?_, ?_, ?_⟩
  · simp [set_cached_score, get_cached_score, hurl, hF1,
      lookupA_insertA_self, insertA_ne_nil]
  · simp [set_cached_score, get_cached_score, hurl, hF1, hF2,
      lookupA_insertA_self, insertA_ne_nil,
      lookupA_insertA_ne _ _ _ _ hne, hbu]
  · simp [set_cached_score, get_cached_score, hurl, hF1, hF2,
      lookupA_insertA_self, insertA_ne_nil,
      lookupA_insertA_ne _ _ _ _ (Ne.symm hne)]

/-- Witness for C5 at a concrete cache and fingerprints. -/
theorem scoring_cache_invalidation_witness :
    ("u" : String) ≠ "" ∧ ("f1" : String) ≠ "" ∧ ("f2" : String) ≠ "" ∧
    ("f1" : String) ≠ "f2" ∧
    get_cached_score emptyCache "u" "f2" = none ∧
    (get_cached_score (set_cached_score emptyCache "u" "f1" 7 ["a"] 1) "u" "f1" =
      some ⟨7, ["a"], 1⟩ ∧
     get_cached_score (set_cached_score emptyCache "u" "f1" 7 ["a"] 1) "u" "f2" =
      none ∧
     get_cached_score
      (set_cached_score (set_cached_score emptyCache "u" "f1" 7 ["a"] 1)
        "u" "f2" 9 ["b"] 2) "u" "f1" = some ⟨7, ["a"], 1⟩) :=
  ⟨by decide, by decide, by decide, by decide, by decide,
    scoring_cache_invalidation emptyCache "u" "f1" "f2" 7 9 ["a"] ["b"] 1 2
      (by decide) (by decide) (by decide) (by decide) (by decide)⟩

/-- C6: in the result-collection loop, a raising collector contributes zero
listings and one logged error carrying its source name, while a successful
collector returning `n` listings contributes exactly those `n` listings —
in either completion order, and the merge itself is a total function, so
the run is never aborted. -/
theorem collector_failure_isolated (srcA srcB eA : String) (dogsB : List Dog) :
    collect_results [(srcA, Except.error eA), (srcB, Except.ok dogsB)] =
      (dogsB, [(srcA, eA)]) ∧
    collect_results [(srcB, Except.ok dogsB), (srcA, Except.error eA)] =
      (dogsB, [(srcA, eA)]) := by
  constructor <;> simp [collect_results]

/-! ## Deduplicator lemmas -/

theorem dedupGo_sublist (l : List Dog) :
    ∀ seen : List (String × String), List.Sublist (dedupGo seen l) l := by
  induction l with
  | nil => intro seen; simp [dedupGo]
  | cons d rest ih =>
    intro seen
    by_cases h : dogKey d ∈ seen
    · simpa [dedupGo, h] using List.Sublist.cons d (ih seen)
    · simpa [dedupGo, h] using List.Sublist.cons₂ d (ih (dogKey d :: seen))

theorem dedupGo_keyFilter (l : List Dog) :
    ∀ (seen : List (String × String)) (k : String × String),
      keyFilter k (dedupGo seen l) =
        if k ∈ seen then [] else (keyFilter k l).take 1 := by
  induction l with
  | nil => intro seen k; simp [dedupGo, keyFilter]
  | cons d rest ih =>
    intro seen k
    by_cases hd : dogKey d ∈ seen
    · rw [show dedupGo seen (d :: rest) = dedupGo seen rest by simp [dedupGo, hd],
        ih seen k]
      by_cases hk : k ∈ seen
      · simp [hk]
      · have hdk : ¬ dogKey d = k := fun he => hk (he ▸ hd)
        simp [hk, keyFilter, List.filter_cons, hdk]
    · rw [show dedupGo seen (d :: rest) = d :: dedupGo (dogKey d :: seen) rest by
        simp [dedupGo, hd]]
      by_cases hdk : dogKey d = k
      · subst hdk
        rw [show keyFilter (dogKey d) (d :: dedupGo (dogKey d :: seen) rest) =
            d :: keyFilter (dogKey d) (dedupGo (dogKey d :: seen) rest) by
          simp [keyFilter, List.filter_cons]]
        rw [ih (dogKey d :: seen) (dogKey d)]
        simp [hd, keyFilter, List.filter_cons]
      · rw [show keyFilter k (d :: dedupGo (dogKey d :: seen) rest) =
            keyFilter k (dedupGo (dogKey d :: seen) rest) by
          simp [keyFilter, List.filter_cons, hdk]]
        rw [ih (dogKey d :: seen) k]
        have hmem : (k ∈ dogKey d :: seen) ↔ k ∈ seen := by
          simp only [List.mem_cons]
          constructor
          · rintro (h1 | h1)
            · exact absurd h1.symm hdk
            · exact h1
          · exact Or.inr
        by_cases hk : k ∈ seen
        · simp [hmem, hk]
        · simp [hmem, hk, keyFilter, List.filter_cons, hdk]

/-- C2: the Deduplicator returns a sublist of its input (so surviving
entries keep input order), and for every identity key the survivors with
that key are exactly the first input entry with that key — in particular a
key occurring twice or more keeps exactly its first occurrence, and every
key present in the input stays present. -/
theorem dedup_first_wins (l : List Dog) :
    List.Sublist (deduplicate_dogs l) l ∧
    ∀ k : String × String,
      keyFilter k (deduplicate_dogs l) = (keyFilter k l).take 1 := by
  constructor
  · exact dedupGo_sublist l []
  · intro k
    simpa [deduplicate_dogs] using dedupGo_keyFilter l [] k

/-! ## Ranker lemmas -/

theorem insertDesc_perm (d : Dog) (l : List Dog) :
    List.Perm (insertDesc d l) (d :: l) := by
  induction l with
  | nil => simp [insertDesc]
  | cons e rest ih =>
    by_cases h : sortKey e ≤ sortKey d
    · simp [insertDesc, h]
    · rw [show insertDesc d (e :: rest) = e :: insertDesc d rest by
        simp [insertDesc, h]]
      exact (List.Perm.cons e ih).trans (List.Perm.swap d e rest)

theorem rank_dogs_perm (l : List Dog) : List.Perm (rank_dogs l) l := by
  induction l with
  | nil => simp [rank_dogs]
  | cons d rest ih =>
    exact (insertDesc_perm d (rank_dogs rest)).trans (List.Perm.cons d ih)

theorem insertDesc_pairwise (d : Dog) (l : List Dog)
    (h : l.Pairwise (fun a b => sortKey b ≤ sortKey a)) :
    (insertDesc d l).Pairwise (fun a b => sortKey b ≤ sortKey a) := by
  induction l with
  | nil => simp [insertDesc]
  | cons e rest ih =>
    rw [List.pairwise_cons] at h
    by_cases hle : sortKey e ≤ sortKey d
    · rw [show insertDesc d (e :: rest) = d :: e :: rest by simp [insertDesc, hle]]
      refine List.Pairwise.cons ?_ (List.Pairwise.cons h.1 h.2)
      intro b hb
      rcases List.mem_cons.mp hb with hb | hb
      · exact hb ▸ hle
      · exact le_trans (h.1 b hb) hle
    · rw [show insertDesc d (e :: rest) = e :: insertDesc d rest by
        simp [insertDesc, hle]]
      refine List.Pairwise.cons ?_ (ih h.2)
      intro b hb
      rcases List.mem_cons.mp ((insertDesc_perm d rest).mem_iff.mp hb) with hb | hb
      · exact hb ▸ le_of_lt (lt_of_not_le hle)
      · exact h.1 b hb

theorem rank_dogs_pairwise (l : List Dog) :
    (rank_dogs l).Pairwise (fun a b => sortKey b ≤ sortKey a) := by
  induction l with
  | nil => simp [rank_dogs]
  | cons d rest ih => exact insertDesc_pairwise d (rank_dogs rest) ih

theorem scoreFilter_insertDesc (s : Int) (d : Dog) (l : List Dog) :
    scoreFilter s (insertDesc d l) =
      if sortKey d = s then d :: scoreFilter s l else scoreFilter s l := by
  induction l with
  | nil => simp [insertDesc, scoreFilter, List.filter_cons]
  | cons e rest ih =>
    by_cases hle : sortKey e ≤ sortKey d
    · rw [show insertDesc d (e :: rest) = d :: e :: rest by simp [insertDesc, hle]]
      simp [scoreFilter, List.filter_cons]
    · rw [show insertDesc d (e :: rest) = e :: insertDesc d rest by
        simp [insertDesc, hle]]
      by_cases hds : sortKey d = s
      · have hes : ¬ sortKey e = s := by
          intro hes
          exact hle (le_of_eq (hds ▸ hes))
        rw [show scoreFilter s (e :: insertDesc d rest) =
            scoreFilter s (insertDesc d rest) by
          simp [scoreFilter, List.filter_cons, hes]]
        rw [ih]
        simp [hds, scoreFilter, List.filter_cons, hes]
      · by_cases hes : sortKey e = s
        · rw [show scoreFilter s (e :: insertDesc d rest) =
              e :: scoreFilter s (insertDesc d rest) by
            simp [scoreFilter, List.filter_cons, hes]]
          rw [ih]
          simp [hds, scoreFilter, List.filter_cons, hes]
        · rw [show scoreFilter s (e :: insertDesc d rest) =
              scoreFilter s (insertDesc d rest) by
            simp [scoreFilter, List.filter_cons, hes]]
          rw [ih]
          simp [hds, scoreFilter, List.filter_cons, hes]

theorem rank_dogs_stable (s : Int) (l : List Dog) :
    scoreFilter s (rank_dogs l) = scoreFilter s l := by
  induction l with
  | nil => simp [rank_dogs]
  | cons d rest ih =>
    rw [show rank_dogs (d :: rest) = insertDesc d (rank_dogs rest) by
      simp [rank_dogs]]
    rw [scoreFilter_insertDesc, ih]
    by_cases hds : sortKey d = s <;>
      simp [hds, scoreFilter, List.filter_cons]

/-- C4: the Ranker output is a permutation of its input sorted by score
descending, and the sort is stable — for every score value the sublist of
listings carrying that score is preserved exactly, so equal-score listings
keep their input (post-dedup) relative order and `-1` listings sink to the
bottom of a descending order; on the spec example `[50, 80, 50, -1]` the
output is `[80, 50(first), 50(second), -1]`. -/
theorem ranker_sorted_stable (l : List Dog) (s : Int) :
    (rank_dogs l).Pairwise (fun a b => sortKey b ≤ sortKey a) ∧
    List.Perm (rank_dogs l) l ∧
    scoreFilter s (rank_dogs l) = scoreFilter s l ∧
    rank_dogs [mkDog "A" "/a" "" (some 50), mkDog "B" "/b" "" (some 80),
        mkDog "C" "/c" "" (some 50), mkDog "D" "/d" "" (some (-1))] =
      [mkDog "B" "/b" "" (some 80), mkDog "A" "/a" "" (some 50),
       mkDog "C" "/c" "" (some 50), mkDog "D" "/d" "" (some (-1))] :=
  ⟨rank_dogs_pairwise l, rank_dogs_perm l, rank_dogs_stable s l, by decide⟩

/-- C10: a listing without a `score` key ranks exactly as score `0`
(`x.get("score", 0)`): on a concrete run it sorts below a positive score,
above a `-1` score, and ties stably with an explicit score `0`. -/
theorem missing_score_ranks_as_zero (nm url desc : String)
    (details : List String) :
    sortKey { name := nm, detail_url := url, full_description := desc,
              score := none, score_details := details } = 0 ∧
    rank_dogs [mkDog "M" "/m" "" (some (-1)), mkDog "N" "/n" "" none,
        mkDog "P" "/p" "" (some 5), mkDog "Z" "/z" "" (some 0)] =
      [mkDog "P" "/p" "" (some 5), mkDog "N" "/n" "" none,
       mkDog "Z" "/z" "" (some 0), mkDog "M" "/m" "" (some (-1))] :=
  ⟨rfl, by decide⟩

/-! ## Score-parsing lemmas -/

theorem firstDigitRun_value (l : List Char) :
    (match firstDigitRun l with
     | some ds => Int.ofNat (digitsToNat ds)
     | none => 0)
    = Int.ofNat (digitsToNat
        ((l.dropWhile (fun ch => !ch.isDigit)).takeWhile Char.isDigit)) := by
  induction l with
  | nil => simp [firstDigitRun, digitsToNat]
  | cons ch rest ih =>
    by_cases hd : ch.isDigit
    · simp [firstDigitRun, hd, List.dropWhile_cons, List.takeWhile_cons]
    · simpa [firstDigitRun, hd, List.dropWhile_cons] using ih

/-- C8: the score parser returns the value of the first maximal digit run of
the stripped response text — the first integer `re.search(r"\d+")` finds —
and `0` when the text has no digit at all (then the digit run is empty and
its value is `0`); concrete responses with one integer, several integers and
no integer behave accordingly. -/
theorem parse_score_first_integer (s : String) :
    parse_gemini_score s = Int.ofNat (digitsToNat
      (((stripList s.data).dropWhile (fun ch => !ch.isDigit)).takeWhile
        Char.isDigit)) ∧
    parse_gemini_score "Score: 85/100" = 85 ∧
    parse_gemini_score "I would say 7, maybe 9" = 7 ∧
    parse_gemini_score "no digits at all" = 0 := by
  refine ⟨?_, by decide, by decide, by decide⟩
  unfold parse_gemini_score
  exact firstDigitRun_value (stripList s.data)

/-! ## Scoring-path theorems -/

/-- C1 counterexample: with `API_KEY` unset, `score_dog_with_gemini` returns
score `0` with details `["Missing API Key"]` — not the claimed `-1` with
`["Missing API key"]` — and an evaluator exception yields the sentinel
`["Error scoring with Gemini"]`, not `["Error scoring"]`. -/
theorem scoring_sentinel_counterexample :
    (score_dog_with_gemini envNoKey emptyCache (mkDog "Rex" "/a" "friendly" none)).1
      = { score := 0, score_details := ["Missing API Key"] } ∧
    ¬ (score_dog_with_gemini envNoKey emptyCache
        (mkDog "Rex" "/a" "friendly" none)).1.score = -1 ∧
    ¬ (score_dog_with_gemini envNoKey emptyCache
        (mkDog "Rex" "/a" "friendly" none)).1.score_details = ["Missing API key"] ∧
    ¬ (score_dog_with_gemini envRaises emptyCache
        (mkDog "Rex" "/a" "friendly" none)).1.score_details = ["Error scoring"] :=
  ⟨by decide, by decide, by decide, by decide⟩

/-- C1 (amended): the terminal outcomes of the scoring path are — score `-1`
with `["Missing description"]` when the description is empty everywhere and
the re-fetch fails; score `-1` with `["Error scoring with Gemini"]` when the
evaluator call raises; and score `0` (not `-1`) with `["Missing API Key"]`
when the `API_KEY` variable is unset or empty, which every listing reaching
the evaluator call receives while the run still completes (the function is
total). -/
theorem scoring_terminal_failures
    (env1 env2 env3 : GeminiEnv) (c1 c2 c3 : Cache) (dog1 dog2 dog3 : Dog)
    (e : String)
    (h1a : dog1.full_description = "")
    (h1b : get_cached_description c1 dog1.detail_url = "")
    (h1c : env1.fetch dog1.detail_url = "")
    (h2a : dog2.full_description ≠ "")
    (h2b : get_cached_score c2 dog2.detail_url env2.promptHash = none)
    (h2c : env2.apiKey.getD "" ≠ "")
    (h2d : generate_gemini_prompt env2 dog2 ≠ "")
    (h2e : env2.geminiResponse = Except.error e)
    (h3a : dog3.full_description ≠ "")
    (h3b : get_cached_score c3 dog3.detail_url env3.promptHash = none)
    (h3c : env3.apiKey.getD "" = "") :
    (score_dog_with_gemini env1 c1 dog1).1 =
      { score := -1, score_details := ["Missing description"] } ∧
    (score_dog_with_gemini env2 c2 dog2).1 =
      { score := -1, score_details := ["Error scoring with Gemini"] } ∧
    (score_dog_with_gemini env3 c3 dog3).1 =
      { score := 0, score_details := ["Missing API Key"] } := by
  refine ⟨?_, ?_, ?_⟩
  · by_cases hu : dog1.detail_url = ""
    · simp [score_dog_with_gemini, h1a, h1b, hu, get_cached_description]
    · simp [score_dog_with_gemini, get_full_description, h1a, h1b, h1c, hu]
  · have hcs : get_cached_score
        (set_cached_description c2 dog2.detail_url dog2.full_description none
          env2.now) dog2.detail_url env2.promptHash = none := by
      rw [get_cached_score_set_cached_description]
      exact h2b
    simp [score_dog_with_gemini, score_gemini_after_desc, call_gemini_api,
      h2a, hcs, h2c, h2d, h2e]
  · have hcs : get_cached_score
        (set_cached_description c3 dog3.detail_url dog3.full_description none
          env3.now) dog3.detail_url env3.promptHash = none := by
      rw [get_cached_score_set_cached_description]
      exact h3b
    simp [score_dog_with_gemini, score_gemini_after_desc, call_gemini_api,
      h3a, hcs, h3c]

/-- Witness for C1 (amended): the three terminal outcomes at concrete
environments, caches and listings. -/
theorem scoring_terminal_failures_witness :
    (mkDog "A" "/a" "" none).full_description = "" ∧
    get_cached_description emptyCache (mkDog "A" "/a" "" none).detail_url = "" ∧
    envNoKey.fetch (mkDog "A" "/a" "" none).detail_url = "" ∧
    (mkDog "B" "/b" "desc" none).full_description ≠ "" ∧
    get_cached_score emptyCache (mkDog "B" "/b" "desc" none).detail_url
      envRaises.promptHash = none ∧
    envRaises.apiKey.getD "" ≠ "" ∧
    generate_gemini_prompt envRaises (mkDog "B" "/b" "desc" none) ≠ "" ∧
    envRaises.geminiResponse = Except.error "boom" ∧
    (mkDog "C" "/c" "desc" none).full_description ≠ "" ∧
    get_cached_score emptyCache (mkDog "C" "/c" "desc" none).detail_url
      envNoKey.promptHash = none ∧
    envNoKey.apiKey.getD "" = "" ∧
    ((score_dog_with_gemini envNoKey emptyCache (mkDog "A" "/a" "" none)).1 =
      { score := -1, score_details := ["Missing description"] } ∧
     (score_dog_with_gemini envRaises emptyCache (mkDog "B" "/b" "desc" none)).1 =
      { score := -1, score_details := ["Error scoring with Gemini"] } ∧
     (score_dog_with_gemini envNoKey emptyCache (mkDog "C" "/c" "desc" none)).1 =
      { score := 0, score_details := ["Missing API Key"] }) :=
  ⟨rfl, by decide, rfl, by decide, by decide, by decide, by decide, rfl,
   by decide, by decide, rfl,
   scoring_terminal_failures envNoKey envRaises envNoKey emptyCache emptyCache
     emptyCache (mkDog "A" "/a" "" none) (mkDog "B" "/b" "desc" none)
     (mkDog "C" "/c" "desc" none) "boom" rfl (by decide) rfl (by decide)
     (by decide) (by decide) (by decide) rfl (by decide) (by decide) rfl⟩

end Chien
